import Mathlib

/-!
Verification of the BitMon Bitcoin-HTLC atomic-swap engine.

This file shallowly embeds the TypeScript sources under `src/` (notably
`src/btc/lib/htlc-builder.ts`, `src/btc/scripts/claim-htlc-reverse.ts`,
`src/btc/scripts/create-htlc.ts`, `src/btc/scripts/fund-htlc.ts`,
`src/monadvm/scripts/maker-claim-btc.ts` and
`src/monadvm/scripts/taker-fund-htlc-real.ts`) and proves or refutes the
specification's claims about them.

Modelling conventions:
* Node `Buffer`s are `List Nat` of byte values.
* External library cryptography (SHA-256 from `crypto`, HASH160, ECDSA
  signing from `ecpair`/`tiny-secp256k1`, DER validation from
  `bitcoin.script.signature.decode`) is passed in as explicit function
  parameters: the repository's logic never inspects those functions'
  internals, so every theorem quantifies over them.
* `bitcoinjs-lib` transaction (de)serialisation (`Transaction.toHex` /
  `Transaction.fromHex`) is a bijection between raw hex and the structured
  transaction; we work with the structured form directly.  The witness
  bytes that the repository writes BY HAND in its custom PSBT finalizers
  (`finalScriptWitness`) are modelled at the byte level, together with the
  library parser (`scriptWitnessToWitnessStack`) that turns them back into
  a witness stack, because that serialisation is repository code.
* Fallible operations return `Except`/`Option`; a thrown JS `Error`
  becomes an error value, and the order of error checks follows the
  statement order of the source.
-/

namespace BitMon

/-- Decidable equality for `Except`, used to evaluate builder results on
concrete inputs. -/
instance {ε α : Type} [DecidableEq ε] [DecidableEq α] :
    DecidableEq (Except ε α) := fun a b =>
  match a, b with
  | .ok x, .ok y =>
    match decEq x y with
    | isTrue h => isTrue (by rw [h])
    | isFalse h => isFalse (by intro he; cases he; exact h rfl)
  | .error x, .error y =>
    match decEq x y with
    | isTrue h => isTrue (by rw [h])
    | isFalse h => isFalse (by intro he; cases he; exact h rfl)
  | .ok _, .error _ => isFalse (by intro h; cases h)
  | .error _, .ok _ => isFalse (by intro h; cases h)

/-- A Node `Buffer` is modelled as a list of byte values (each `< 256`). -/
abbrev Bytes := List Nat

/-! ### Bitcoin script opcodes (the ones the sources use) -/

def OP_0 : Nat := 0x00
def OP_PUSHDATA1 : Nat := 0x4c
def OP_PUSHDATA2 : Nat := 0x4d
def OP_PUSHDATA4 : Nat := 0x4e
def OP_1NEGATE : Nat := 0x4f
def OP_RESERVED : Nat := 0x50
def OP_IF : Nat := 0x63
def OP_ELSE : Nat := 0x67
def OP_ENDIF : Nat := 0x68
def OP_DROP : Nat := 0x75
def OP_DUP : Nat := 0x76
def OP_EQUAL : Nat := 0x87
def OP_EQUALVERIFY : Nat := 0x88
def OP_SHA256 : Nat := 0xa8
def OP_HASH160 : Nat := 0xa9
def OP_CHECKSIG : Nat := 0xac
def OP_CHECKLOCKTIMEVERIFY : Nat := 0xb1

/-- A decompiled script chunk, as produced/consumed by
`bitcoin.script.compile` / `bitcoin.script.decompile`: either a plain
opcode or a data push. -/
inductive Chunk where
  | code (op : Nat)
  | data (buf : Bytes)
deriving DecidableEq, Repr

/-- `asMinimalOP` from bitcoinjs-lib `script.js`: single-byte pushes of
`0x01`–`0x10`, of `0x81`, and empty pushes are replaced by their opcode. -/
def asMinimalOP (buf : Bytes) : Option Nat :=
  if buf.length = 0 then some OP_0
  else if buf.length = 1 then
    if 1 ≤ buf.headI ∧ buf.headI ≤ 16 then some (OP_RESERVED + buf.headI)
    else if buf.headI = 0x81 then some OP_1NEGATE
    else none
  else none

/-- `pushdata.encode` from bitcoinjs-lib: length prefix for a data push. -/
def pushdataEncode (buf : Bytes) : Bytes :=
  if buf.length < 0x4c then buf.length :: buf
  else if buf.length ≤ 0xff then OP_PUSHDATA1 :: buf.length :: buf
  else if buf.length ≤ 0xffff then
    OP_PUSHDATA2 :: (buf.length % 256) :: (buf.length / 256) :: buf
  else
    OP_PUSHDATA4 :: (buf.length % 256) :: (buf.length / 256 % 256) ::
      (buf.length / 65536 % 256) :: (buf.length / 16777216 % 256) :: buf

/-- Compilation of one chunk (`bitcoin.script.compile` body). -/
def compileChunk : Chunk → Bytes
  | .code op => [op]
  | .data buf =>
    match asMinimalOP buf with
    | some op => [op]
    | none => pushdataEncode buf

/-- `bitcoin.script.compile`: concatenate the compiled chunks. -/
def compile (chunks : List Chunk) : Bytes :=
  chunks.foldr (fun c acc => compileChunk c ++ acc) []

/-- `scriptNumSize` from bitcoinjs-lib `script_number.js`. -/
def scriptNumSize (i : Nat) : Nat :=
  if i > 0x7fffffff then 5
  else if i > 0x7fffff then 4
  else if i > 0x7fff then 3
  else if i > 0x7f then 2
  else if i > 0 then 1
  else 0

/-- `bitcoin.script.number.encode` restricted to non-negative inputs (the
sources only ever encode a locktime).  Little-endian minimal encoding; for
arguments `≤ 0x7fffffff` the sign-byte adjustment of the source never
fires (the top byte is below `0x80` by construction), and all theorems
below restrict locktimes to that range, where JS 32-bit shifts agree with
ordinary arithmetic. -/
def scriptNumEncode (n : Nat) : Bytes :=
  (List.range (scriptNumSize n)).map (fun i => n / 256 ^ i % 256)

/-- `Buffer.writeUInt32LE`: 4-byte little-endian encoding.  The library
throws for values `≥ 2^32`; theorems carry that bound as a hypothesis. -/
def writeUInt32LE (n : Nat) : Bytes :=
  [n % 256, n / 256 % 256, n / 65536 % 256, n / 16777216 % 256]

/-! ### Bitcoin networks (`bitcoinjs-lib` `networks.js` and the
`NETWORKS` table of `claim-htlc-reverse.ts`) -/

/-- A bitcoinjs-lib network descriptor (the fields relevant to address
encoding; `messagePrefix`/`bip32` are never consulted by the sources'
address logic and are carried only for completeness of the record). -/
structure Network where
  bech32 : String
  pubKeyHash : Nat
  scriptHash : Nat
  wif : Nat
deriving DecidableEq, Repr

/-- `bitcoin.networks.bitcoin`. -/
def mainnet : Network := { bech32 := "bc", pubKeyHash := 0x00, scriptHash := 0x05, wif := 0x80 }

/-- `bitcoin.networks.testnet`; the hand-rolled `testnet4` entry of
`claim-htlc-reverse.ts` has exactly the same field values. -/
def testnet : Network := { bech32 := "tb", pubKeyHash := 0x6f, scriptHash := 0xc4, wif := 0xef }

/-- `bitcoin.networks.regtest`. -/
def regtest : Network := { bech32 := "bcrt", pubKeyHash := 0x6f, scriptHash := 0xc4, wif := 0xef }

/-- A Bitcoin address in decoded form.  `bitcoinjs-lib` encodes this
structure as a Base58Check or Bech32 string; the string encoding is an
injective library bijection, so the repository's validation logic
(version-byte and prefix comparisons) is preserved exactly by working on
the decoded form. -/
inductive Address where
  | base58 (version : Nat) (hash : Bytes)
  | bech32 (hrp : String) (version : Nat) (program : Bytes)
deriving DecidableEq, Repr

/-- `bitcoin.address.fromOutputScript`: recognise the standard output
templates (P2PKH, P2SH, P2WPKH, P2WSH) and attach the network's encoding
parameters. -/
def fromOutputScript (script : Bytes) (network : Network) : Option Address :=
  if script.take 3 = [OP_DUP, OP_HASH160, 0x14] ∧ script.length = 25 ∧
      script.drop 23 = [OP_EQUALVERIFY, OP_CHECKSIG] then
    some (.base58 network.pubKeyHash ((script.drop 3).take 20))
  else if script.take 2 = [OP_HASH160, 0x14] ∧ script.length = 23 ∧
      script.drop 22 = [OP_EQUAL] then
    some (.base58 network.scriptHash ((script.drop 2).take 20))
  else if script.take 2 = [OP_0, 0x14] ∧ script.length = 22 then
    some (.bech32 network.bech32 0 (script.drop 2))
  else if script.take 2 = [OP_0, 0x20] ∧ script.length = 34 then
    some (.bech32 network.bech32 0 (script.drop 2))
  else none

/-- `bitcoin.address.toOutputScript`: decode an address against a network,
yielding the locking script, or fail when the version byte (Base58) or the
human-readable part (Bech32) does not match the network. -/
def toOutputScript (addr : Address) (network : Network) : Option Bytes :=
  match addr with
  | .base58 version hash =>
    if hash.length = 20 ∧ version = network.pubKeyHash then
      some ([OP_DUP, OP_HASH160, 0x14] ++ hash ++ [OP_EQUALVERIFY, OP_CHECKSIG])
    else if hash.length = 20 ∧ version = network.scriptHash then
      some ([OP_HASH160, 0x14] ++ hash ++ [OP_EQUAL])
    else none
  | .bech32 hrp version program =>
    if hrp = network.bech32 then
      if version = 0 ∧ program.length = 20 then some ([OP_0, 0x14] ++ program)
      else if version = 0 ∧ program.length = 32 then some ([OP_0, 0x20] ++ program)
      else none
    else none

/-- `HTLCBuilder.validateHTLCAddress` (htlc-builder.ts lines 407-414):
`toOutputScript` succeeds against the network. -/
def validateHTLCAddress (addr : Address) (network : Network) : Bool :=
  (toOutputScript addr network).isSome

/-! ### HTLC script construction -/

/-- `HTLCConfig` (htlc-builder.ts lines 9-16); the optional `useSegwit`
flag is a `Bool` (absent means `false`, as JS treats `undefined` as
falsy). -/
structure HTLCConfig where
  senderPublicKey : Bytes
  receiverPublicKey : Bytes
  hashlock : Bytes
  locktime : Nat
  network : Network
  useSegwit : Bool
deriving DecidableEq, Repr

/-- `HTLCBuilder.createHTLCScript` (htlc-builder.ts lines 45-63):
`IF SHA256 h EQUALVERIFY recv CHECKSIG ELSE lt CLTV DROP send CHECKSIG
ENDIF` with the locktime in minimal script-number encoding. -/
def createHTLCScript (cfg : HTLCConfig) : Bytes :=
  compile [
    .code OP_IF,
    .code OP_SHA256,
    .data cfg.hashlock,
    .code OP_EQUALVERIFY,
    .data cfg.receiverPublicKey,
    .code OP_CHECKSIG,
    .code OP_ELSE,
    .data (scriptNumEncode cfg.locktime),
    .code OP_CHECKLOCKTIMEVERIFY,
    .code OP_DROP,
    .data cfg.senderPublicKey,
    .code OP_CHECKSIG,
    .code OP_ENDIF
  ]

/-- `createHTLCScript` of claim-htlc-reverse.ts (lines 97-121).  Note the
structural differences from `HTLCBuilder.createHTLCScript`: a single
`CHECKSIG` after `ENDIF` instead of one per branch, and the locktime as a
fixed 4-byte little-endian buffer instead of a minimal script number. -/
def reverseCreateHTLCScript (senderPubKey receiverPubKey hashlock : Bytes)
    (locktime : Nat) : Bytes :=
  compile [
    .code OP_IF,
    .code OP_SHA256,
    .data hashlock,
    .code OP_EQUALVERIFY,
    .data receiverPubKey,
    .code OP_ELSE,
    .data (writeUInt32LE locktime),
    .code OP_CHECKLOCKTIMEVERIFY,
    .code OP_DROP,
    .data senderPubKey,
    .code OP_ENDIF,
    .code OP_CHECKSIG
  ]

/-- `HTLCOutput` (htlc-builder.ts lines 18-24). -/
structure HTLCOutput where
  address : Address
  redeemScript : Bytes
  lockingScript : Bytes
  scriptHash : Bytes
  witnessScript : Option Bytes
deriving DecidableEq, Repr

/-- `HTLCBuilder.createHTLC` (htlc-builder.ts lines 68-106),
parameterised by the library hash functions `sha256` (`bitcoin.crypto.sha256`)
and `hash160` (`bitcoin.crypto.hash160`).  Returns `none` when
`fromOutputScript` would throw (it never does for 32- or 20-byte digests). -/
def createHTLC (sha256 hash160 : Bytes → Bytes) (cfg : HTLCConfig) :
    Option HTLCOutput :=
  let redeemScript := createHTLCScript cfg
  if cfg.useSegwit then
    let witnessScript := redeemScript
    let scriptHash := sha256 witnessScript
    let lockingScript := compile [.code OP_0, .data scriptHash]
    (fromOutputScript lockingScript cfg.network).map fun address =>
      { address := address, redeemScript := redeemScript,
        lockingScript := lockingScript, scriptHash := scriptHash,
        witnessScript := some witnessScript }
  else
    let scriptHash := hash160 redeemScript
    let lockingScript := compile [.code OP_HASH160, .data scriptHash, .code OP_EQUAL]
    (fromOutputScript lockingScript cfg.network).map fun address =>
      { address := address, redeemScript := redeemScript,
        lockingScript := lockingScript, scriptHash := scriptHash,
        witnessScript := none }

/-! ### Transactions and witness serialisation -/

/-- A transaction input (`tx.ins[i]` of a bitcoinjs `Transaction`):
`hash` is the byte-reversed funding txid, `scriptSig` the legacy input
script, `witness` the segwit witness stack. -/
structure TxIn where
  hash : Bytes
  index : Nat
  sequence : Nat
  scriptSig : Bytes
  witness : List Bytes
deriving DecidableEq, Repr

/-- A transaction output. -/
structure TxOut where
  script : Bytes
  value : Int
deriving DecidableEq, Repr

/-- A bitcoinjs `Transaction` in structured form (its hex form is the
library's bijective serialisation of this record). -/
structure Transaction where
  version : Int
  locktime : Nat
  ins : List TxIn
  outs : List TxOut
deriving DecidableEq, Repr

/-- The transaction artifact returned by the builders (htlc-builder.ts
`HTLCTransaction`); `txid`, `hex` and `vsize` are library serialisation
functions of `tx`, so the structured transaction and the reported fee are
carried. -/
structure HTLCTransaction where
  tx : Transaction
  fee : Nat
deriving DecidableEq, Repr

/-- The hand-written `finalScriptWitness` bytes of the custom PSBT
finalizers (htlc-builder.ts lines 248-257 and 349-358): a count byte
followed, for each stack item, by a length byte and the item.
`Buffer.from [n]` truncates modulo 256. -/
def encodeWitnessStack (stack : List Bytes) : Bytes :=
  (stack.length % 256) ::
    stack.foldr (fun item acc => (item.length % 256) :: (item ++ acc)) []

/-- Bitcoin variable-length integer reader (`varuint-bitcoin`), as used by
the PSBT witness parser; fails (library `RangeError`) when the buffer is
too short for the announced width. -/
def readVarInt : Bytes → Option (Nat × Bytes)
  | [] => none
  | b :: rest =>
    if b < 0xfd then some (b, rest)
    else if b = 0xfd then
      match rest with
      | b0 :: b1 :: r => some (b0 + 256 * b1, r)
      | _ => none
    else if b = 0xfe then
      match rest with
      | b0 :: b1 :: b2 :: b3 :: r =>
        some (b0 + 256 * b1 + 65536 * b2 + 16777216 * b3, r)
      | _ => none
    else
      match rest with
      | b0 :: b1 :: b2 :: b3 :: b4 :: b5 :: b6 :: b7 :: r =>
        some (b0 + 256 * b1 + 65536 * b2 + 16777216 * b3 +
          4294967296 * b4 + 1099511627776 * b5 + 281474976710656 * b6 +
          72057594037927936 * b7, r)
      | _ => none

/-- Read `n` length-prefixed slices (the loop of
`scriptWitnessToWitnessStack` in bitcoinjs `psbt.js`); like JS
`Buffer.slice`, a read past the end clamps instead of failing. -/
def readSlices : Nat → Bytes → Option (List Bytes × Bytes)
  | 0, bs => some ([], bs)
  | n + 1, bs =>
    match readVarInt bs with
    | none => none
    | some (len, bs₁) =>
      match readSlices n (bs₁.drop len) with
      | none => none
      | some (items, bs₂) => some (bs₁.take len :: items, bs₂)

/-- `scriptWitnessToWitnessStack` from bitcoinjs `psbt.js`: parse the
`finalScriptWitness` bytes back into a witness stack. -/
def scriptWitnessToWitnessStack (b : Bytes) : Option (List Bytes) :=
  match readVarInt b with
  | none => none
  | some (count, bs) => (readSlices count bs).map Prod.fst

/-- `pushdata.decode` from bitcoinjs-lib: given the push opcode and the
bytes after it, return the announced data length and the remaining
bytes. -/
def pushdataDecode (op : Nat) (rest : Bytes) : Option (Nat × Bytes) :=
  if op < OP_PUSHDATA1 then some (op, rest)
  else if op = OP_PUSHDATA1 then
    match rest with
    | b0 :: r => some (b0, r)
    | _ => none
  else if op = OP_PUSHDATA2 then
    match rest with
    | b0 :: b1 :: r => some (b0 + 256 * b1, r)
    | _ => none
  else
    match rest with
    | b0 :: b1 :: b2 :: b3 :: r =>
      some (b0 + 256 * b1 + 65536 * b2 + 16777216 * b3, r)
    | _ => none

/-- One step of `bitcoin.script.decompile`, with fuel (the fuel is the
byte count, so the `fuel = 0` fallback is never reached). -/
def decompileAux : Nat → Bytes → Option (List Chunk)
  | _, [] => some []
  | 0, _ :: _ => none
  | fuel + 1, op :: rest =>
    if 0 < op ∧ op ≤ OP_PUSHDATA4 then
      match pushdataDecode op rest with
      | none => none
      | some (len, bs) =>
        if len ≤ bs.length then
          match decompileAux fuel (bs.drop len) with
          | none => none
          | some chunks =>
            some ((match asMinimalOP (bs.take len) with
              | some o => Chunk.code o
              | none => Chunk.data (bs.take len)) :: chunks)
        else none
    else
      match decompileAux fuel rest with
      | none => none
      | some chunks => some (Chunk.code op :: chunks)

/-- `bitcoin.script.decompile`: returns `none` on a malformed script. -/
def decompile (b : Bytes) : Option (List Chunk) :=
  decompileAux b.length b

/-- `HTLCBuilder.extractSecretFromTransaction` (htlc-builder.ts lines
376-402), applied to the parsed transaction.  The segwit branch returns
`tx.ins[0].witness[1]` (JS `undefined`, i.e. no secret, when the witness
has a single element); the legacy branch returns the second decompiled
script-sig chunk; every other path — including the `try/catch` around a
missing input 0 — yields no secret. -/
def extractSecretFromTransaction (tx : Transaction) : Option Chunk :=
  match tx.ins with
  | [] => none
  | i :: _ =>
    if i.witness.length > 0 then
      (i.witness.get? 1).map Chunk.data
    else if i.scriptSig.length > 0 then
      match decompile i.scriptSig with
      | some chunks => if chunks.length > 1 then chunks.get? 1 else none
      | none => none
    else none

/-- The input-0 stack that `extractSecretFromTransaction` inspects: the
segwit witness when present, otherwise the decompiled legacy script-sig
(empty when decompilation fails or both are absent). -/
def input0Stack (i : TxIn) : List Chunk :=
  if i.witness.length > 0 then i.witness.map Chunk.data
  else if i.scriptSig.length > 0 then (decompile i.scriptSig).getD []
  else []

/-! ### Transaction builders (htlc-builder.ts) -/

/-- The failure modes of the builder functions, in source order of their
checks.  `legacyUnsupported` is the explicit P2SH throw; `invalidOutputValue`
is the library `types.Satoshi` typeforce inside `psbt.addOutput`
(`0 ≤ value ≤ 21e14`); `invalidAddress` is a `toOutputScript` throw inside
`psbt.addOutput`; `signatureFormat` is the custom finalizer's DER-decode
throw; `invalidLocktime` is the `psbt.setLocktime` UInt32 typeforce;
`witnessParse` marks a `finalScriptWitness` that the library parser cannot
read back (never reached for the stacks the sources build);
`addressDerivation` is a `fromOutputScript` throw inside `createHTLC`. -/
inductive BuilderError where
  | legacyUnsupported
  | invalidOutputValue
  | invalidAddress
  | signatureFormat
  | invalidLocktime
  | witnessParse
  | addressDerivation
deriving DecidableEq, Repr

/-- `types.Satoshi` upper bound from bitcoinjs-lib (`21 * 1e14`). -/
def maxSatoshi : Int := 2100000000000000

/-- `HTLCBuilder.createClaimTransaction` (htlc-builder.ts lines 175-270).
The ECDSA signature the library produces for input 0 is the `signature`
parameter, and `sigDecodes` models `bitcoin.script.signature.decode`
succeeding on it; both are external library crypto.  The check order
follows the source: build the HTLC, add the input (or throw on legacy),
compute fee and output amount, add the output (address decode, then the
library value check), sign, then run the custom finalizer which emits the
hand-written witness bytes that `extractTransaction` parses back. -/
def createClaimTransaction (sha256 hash160 : Bytes → Bytes) (cfg : HTLCConfig)
    (htlcTxid : Bytes) (htlcVout : Nat) (htlcAmount : Int) (secret : Bytes)
    (destinationAddress : Address) (feeRate : Nat) (signature : Bytes)
    (sigDecodes : Bytes → Bool) : Except BuilderError HTLCTransaction :=
  match createHTLC sha256 hash160 cfg with
  | none => .error .addressDerivation
  | some htlc =>
    if cfg.useSegwit = false then .error .legacyUnsupported else
    let estimatedSize : Nat := 150
    let fee : Nat := estimatedSize * feeRate
    let outputAmount : Int := htlcAmount - fee
    match toOutputScript destinationAddress cfg.network with
    | none => .error .invalidAddress
    | some outScript =>
      if outputAmount < 0 ∨ maxSatoshi < outputAmount then .error .invalidOutputValue else
      if sigDecodes signature = false then .error .signatureFormat else
      let witnessStack := [signature, secret, [1], htlc.witnessScript.getD []]
      match scriptWitnessToWitnessStack (encodeWitnessStack witnessStack) with
      | none => .error .witnessParse
      | some parsedWitness =>
        .ok { tx := { version := 2, locktime := 0,
                      ins := [{ hash := htlcTxid.reverse, index := htlcVout,
                                sequence := 0xffffffff, scriptSig := [],
                                witness := parsedWitness }],
                      outs := [{ script := outScript, value := outputAmount }] },
              fee := fee }

/-- `HTLCBuilder.createRefundTransaction` (htlc-builder.ts lines 275-371):
like the claim but with input sequence `0xfffffffe`, `psbt.setLocktime`
(UInt32-checked) and the witness stack `[signature, [0], witnessScript]`. -/
def createRefundTransaction (sha256 hash160 : Bytes → Bytes) (cfg : HTLCConfig)
    (htlcTxid : Bytes) (htlcVout : Nat) (htlcAmount : Int)
    (destinationAddress : Address) (feeRate : Nat) (signature : Bytes)
    (sigDecodes : Bytes → Bool) : Except BuilderError HTLCTransaction :=
  match createHTLC sha256 hash160 cfg with
  | none => .error .addressDerivation
  | some htlc =>
    if cfg.useSegwit = false then .error .legacyUnsupported else
    if cfg.locktime ≥ 4294967296 then .error .invalidLocktime else
    let estimatedSize : Nat := 150
    let fee : Nat := estimatedSize * feeRate
    let outputAmount : Int := htlcAmount - fee
    match toOutputScript destinationAddress cfg.network with
    | none => .error .invalidAddress
    | some outScript =>
      if outputAmount < 0 ∨ maxSatoshi < outputAmount then .error .invalidOutputValue else
      if sigDecodes signature = false then .error .signatureFormat else
      let witnessStack := [signature, [0], htlc.witnessScript.getD []]
      match scriptWitnessToWitnessStack (encodeWitnessStack witnessStack) with
      | none => .error .witnessParse
      | some parsedWitness =>
        .ok { tx := { version := 2, locktime := cfg.locktime,
                      ins := [{ hash := htlcTxid.reverse, index := htlcVout,
                                sequence := 0xfffffffe, scriptSig := [],
                                witness := parsedWitness }],
                      outs := [{ script := outScript, value := outputAmount }] },
              fee := fee }

/-- A funding UTXO as consumed by `createFundingTransaction`. -/
structure FundingUTXO where
  txid : Bytes
  vout : Nat
  scriptPubKey : Bytes
  value : Int
deriving DecidableEq, Repr

/-- `HTLCBuilder.createFundingTransaction` (htlc-builder.ts lines
111-170): add every UTXO as an input, pay `amount` to the HTLC address,
compute `fee = ceil((#inputs * 148 + 2*34 + 10) * feeRate)` (the product
of two integers, so `Math.ceil` is the identity), and add a change output
exactly when `change > 546`.  `signWitness i` is the library-finalised
P2WPKH witness of input `i` (external crypto). -/
def createFundingTransaction (sha256 hash160 : Bytes → Bytes)
    (cfg : HTLCConfig) (utxos : List FundingUTXO) (amount : Int)
    (changeAddress : Address) (feeRate : Nat)
    (signWitness : Nat → List Bytes) : Except BuilderError HTLCTransaction :=
  match createHTLC sha256 hash160 cfg with
  | none => .error .addressDerivation
  | some htlc =>
    let totalInput : Int := (utxos.map (·.value)).sum
    match toOutputScript htlc.address cfg.network with
    | none => .error .invalidAddress
    | some htlcOutScript =>
      if amount < 0 ∨ maxSatoshi < amount then .error .invalidOutputValue else
      let estimatedSize : Nat := utxos.length * 148 + 2 * 34 + 10
      let fee : Nat := estimatedSize * feeRate
      let change : Int := totalInput - amount - fee
      let htlcOut : TxOut := { script := htlcOutScript, value := amount }
      let outsE : Except BuilderError (List TxOut) :=
        if change > 546 then
          match toOutputScript changeAddress cfg.network with
          | none => .error .invalidAddress
          | some changeScript =>
            if change < 0 ∨ maxSatoshi < change then .error .invalidOutputValue
            else .ok [htlcOut, { script := changeScript, value := change }]
        else .ok [htlcOut]
      match outsE with
      | .error e => .error e
      | .ok outs =>
        .ok { tx := { version := 2, locktime := 0,
                      ins := (List.range utxos.length).map fun i =>
                        { hash := ((utxos.get? i).map (·.txid)).getD [] |>.reverse,
                          index := ((utxos.get? i).map (·.vout)).getD 0,
                          sequence := 0xffffffff, scriptSig := [],
                          witness := signWitness i },
                      outs := outs },
              fee := fee }

/-! ### The reverse-flow claim script (claim-htlc-reverse.ts) -/

/-- Failure modes of `claimHTLC` (claim-htlc-reverse.ts lines 123-289), in
source order: unknown network name, secret/hashlock mismatch, missing
funding output in the fetched transaction, `outputAmount <= 0`, an invalid
destination address, and the canonical-DER signature check. -/
inductive ClaimError where
  | unsupportedNetwork
  | secretMismatch
  | fundingOutputMissing
  | insufficientFunds
  | invalidAddress
  | signatureFormat
deriving DecidableEq, Repr

/-- The `NETWORKS` table of claim-htlc-reverse.ts (lines 21-35). -/
def reverseNETWORKS (name : String) : Option Network :=
  if name = "testnet4" then some testnet
  else if name = "testnet" then some testnet
  else if name = "mainnet" then some mainnet
  else none

/-- The HTLC configuration record read from the saved JSON file
(claim-htlc-reverse.ts `HTLCConfig`), hex fields decoded to bytes. -/
structure ReverseHTLCConfig where
  networkName : String
  locktime : Nat
  senderPublicKey : Bytes
  receiverPublicKey : Bytes
  hashlock : Bytes
  witnessScript : Option Bytes
deriving DecidableEq, Repr

/-- `claimHTLC` (claim-htlc-reverse.ts lines 123-289) up to the broadcast:
verify the secret against the hashlock, pick the stored witness script or
rebuild it, fetch the funding output value (`fundingValue`, a network
lookup, passed in), compute `fee = ceil(300 * feeRate)` and reject
`outputAmount <= 0` with the insufficient-funds error BEFORE the
transaction is created or signed, then build and sign the version-2
transaction with witness `[signature, secret, [1], htlcScript]`. -/
def claimHTLC (sha256 : Bytes → Bytes) (htlcConfig : ReverseHTLCConfig)
    (fundingTxId : Bytes) (secret : Bytes) (destinationAddress : Address)
    (feeRate : Nat) (fundingValue : Option Int) (signature : Bytes)
    (sigDecodes : Bytes → Bool) : Except ClaimError Transaction :=
  match reverseNETWORKS htlcConfig.networkName with
  | none => .error .unsupportedNetwork
  | some network =>
    if sha256 secret ≠ htlcConfig.hashlock then .error .secretMismatch else
    let htlcScript :=
      match htlcConfig.witnessScript with
      | some w => w
      | none => reverseCreateHTLCScript htlcConfig.senderPublicKey
          htlcConfig.receiverPublicKey htlcConfig.hashlock htlcConfig.locktime
    match fundingValue with
    | none => .error .fundingOutputMissing
    | some fundingAmount =>
      let estimatedSize : Nat := 300
      let fee : Nat := estimatedSize * feeRate
      let outputAmount : Int := fundingAmount - fee
      if outputAmount ≤ 0 then .error .insufficientFunds else
      match toOutputScript destinationAddress network with
      | none => .error .invalidAddress
      | some outScript =>
        if sigDecodes signature = false then .error .signatureFormat else
        .ok { version := 2, locktime := 0,
              ins := [{ hash := fundingTxId.reverse, index := 0,
                        sequence := 0xffffffff, scriptSig := [],
                        witness := [signature, secret, [1], htlcScript] }],
              outs := [{ script := outScript, value := outputAmount }] }

/-! ### The HTLCCreator wrapper (create-htlc.ts) -/

/-- `HTLCCreator.getNetwork` (create-htlc.ts lines 98-110): note that
`testnet` and `testnet4` resolve to the same network parameters. -/
def getNetwork (networkName : String) : Option Network :=
  if networkName = "mainnet" then some mainnet
  else if networkName = "testnet" then some testnet
  else if networkName = "testnet4" then some testnet
  else if networkName = "regtest" then some regtest
  else none

/-- The hashlock guard used before every claim construction
(create-htlc.ts line 345, claim-htlc-reverse.ts line 150, and
maker-claim-btc.ts line 121): recompute the SHA-256 of the secret and
compare it with the stored hashlock.  This is the spec's
`verify(secret, hashlock)`. -/
def verifySecret (sha256 : Bytes → Bytes) (secret hashlock : Bytes) : Bool :=
  sha256 secret = hashlock

/-- Failure modes of `HTLCCreator.createClaimTx`. -/
inductive CreateClaimError where
  | unsupportedNetwork
  | secretMismatch
  | builder (e : BuilderError)
deriving DecidableEq, Repr

/-- The HTLC parameter record read from the saved HTLC JSON file
(create-htlc.ts `HTLCParams`), hex fields decoded to bytes. -/
structure HTLCParams where
  senderPublicKey : Bytes
  receiverPublicKey : Bytes
  hashlock : Bytes
  locktime : Nat
  network : String
  useSegwit : Bool
deriving DecidableEq, Repr

/-- `HTLCCreator.createClaimTx` (create-htlc.ts lines 313-403) up to the
broadcast: resolve the network, rebuild the `HTLCConfig`, verify the
secret against the stored hashlock (fatal `SecretMismatch` BEFORE any
transaction construction), then delegate to
`HTLCBuilder.createClaimTransaction` with the hard-coded amount 100000. -/
def createClaimTx (sha256 hash160 : Bytes → Bytes) (params : HTLCParams)
    (fundingTxid : Bytes) (fundingVout : Nat) (secret : Bytes)
    (destinationAddress : Address) (feeRate : Nat) (signature : Bytes)
    (sigDecodes : Bytes → Bool) : Except CreateClaimError HTLCTransaction :=
  match getNetwork params.network with
  | none => .error .unsupportedNetwork
  | some network =>
    let cfg : HTLCConfig :=
      { senderPublicKey := params.senderPublicKey,
        receiverPublicKey := params.receiverPublicKey,
        hashlock := params.hashlock, locktime := params.locktime,
        network := network, useSegwit := params.useSegwit }
    if verifySecret sha256 secret params.hashlock = false then
      .error .secretMismatch
    else
      let amount : Int := 100000
      match createClaimTransaction sha256 hash160 cfg fundingTxid fundingVout
          amount secret destinationAddress feeRate signature sigDecodes with
      | .error e => .error (.builder e)
      | .ok t => .ok t

/-! ### The order state machine (monadvm/scripts) -/

/-- Order lifecycle status (`AtomicSwapOrder.status`). -/
inductive OrderStatus where
  | CREATED
  | FILLED
  | FUNDED
  | COMPLETED
  | CANCELLED
deriving DecidableEq, Repr

/-- The taker identity block of an order. -/
structure TakerInfo where
  address : String
  bitcoinAddress : String
deriving DecidableEq, Repr

/-- The Bitcoin HTLC reference block of an order. -/
structure BitcoinHTLCInfo where
  address : String
  scriptHash : String
  amount : String
  network : String
  locktime : Nat
deriving DecidableEq, Repr

/-- The Monad escrow reference block of an order. -/
structure MonadEscrowInfo where
  address : String
  txHash : String
  amount : String
  safetyDeposit : String
  creationFee : String
deriving DecidableEq, Repr

/-- The transaction-reference block of an order. -/
structure OrderTransactions where
  bitcoinHTLCFunding : Option String := none
  monadvmEscrowCreation : Option String := none
  bitcoinHTLCClaim : Option String := none
  monadvmEscrowClaim : Option String := none
deriving DecidableEq, Repr

instance : Inhabited OrderTransactions := ⟨{}⟩

/-- `AtomicSwapOrder` (maker-claim-btc.ts lines 7-70 and
taker-fund-htlc-real.ts lines 5-68), restricted to the fields the step
scripts consult; `secret`/`hashlock` hex strings are decoded to bytes. -/
structure AtomicSwapOrder where
  orderId : String
  status : OrderStatus
  secret : Bytes
  hashlock : Bytes
  taker : Option TakerInfo
  bitcoinHTLC : Option BitcoinHTLCInfo
  monadvmEscrow : Option MonadEscrowInfo
  transactions : Option OrderTransactions
deriving DecidableEq, Repr

/-- Failure modes of the order step scripts.  `invalidOrderState` is the
explicit status-guard throw, `missingComponents` the required-component
throw, `secretMismatch` the hashlock re-validation throw, and
`claimFailed` a non-zero exit of the spawned Bitcoin claim subprocess.
The scripts persist the order file only on the success path, so an error
result leaves the stored record untouched. -/
inductive OrderError where
  | invalidOrderState
  | missingComponents
  | secretMismatch
  | claimFailed
deriving DecidableEq, Repr

/-- The `main` of maker-claim-btc.ts (lines 72-344) as a step function on
the order record.  `claimStep` is the spawned `create-htlc.ts claim`
subprocess, applied to the funding txid the script passes it — which is
`order.transactions?.bitcoinHTLCFunding || ""` (line 211), i.e. the empty
string when the funding reference is absent.  On success the order is
returned with status `COMPLETED` and the claim txid recorded; the source
then writes that record to disk. -/
def makerClaimBtc (sha256 : Bytes → Bytes) (order : AtomicSwapOrder)
    (claimStep : String → Except String String) :
    Except OrderError AtomicSwapOrder :=
  if order.status ≠ .FUNDED then .error .invalidOrderState
  else if order.taker.isNone ∨ order.bitcoinHTLC.isNone ∨
      order.monadvmEscrow.isNone then .error .missingComponents
  else if sha256 order.secret ≠ order.hashlock then .error .secretMismatch
  else
    let fundingTxId := ((order.transactions.bind (·.bitcoinHTLCFunding)).getD (""))
    match claimStep fundingTxId with
    | .error _ => .error .claimFailed
    | .ok claimTxid =>
      .ok { order with
              status := .COMPLETED,
              transactions := some
                { order.transactions.getD {} with
                    bitcoinHTLCClaim := some claimTxid } }

/-- The `main` of taker-fund-htlc-real.ts (lines 70-241) as a step
function.  The only guard is component presence (line 95) — the prior
`status` is never checked — and even a failing `fund-htlc.ts` subprocess
falls back to a simulated txid (lines 213-231), so the step always sets
status `FUNDED` and records a funding txid once the components are
present.  `fundingStep` is the subprocess outcome and `simTxid` the
`sim_..._funding` fallback identifier. -/
def takerFundHtlc (order : AtomicSwapOrder)
    (fundingStep : Except String String) (simTxid : String) :
    Except OrderError AtomicSwapOrder :=
  if order.taker.isNone ∨ order.bitcoinHTLC.isNone ∨
      order.monadvmEscrow.isNone then .error .missingComponents
  else
    let txid := match fundingStep with
      | .ok t => t
      | .error _ => simTxid
    .ok { order with
            status := .FUNDED,
            transactions := some
              { order.transactions.getD {} with
                  bitcoinHTLCFunding := some txid } }

/-! ### Concrete test vectors

Stand-ins for the external library crypto, used only to instantiate the
hash-function parameters at concrete inputs: every theorem below
quantifies over those functions, so any function of the right output
length exercises the repository logic. -/

def dummySha : Bytes → Bytes := fun _ => List.replicate 32 0xaa

def dummyHash160 : Bytes → Bytes := fun _ => List.replicate 20 0x11

/-- A segwit HTLC configuration with standard-sized parameters. -/
def cfg0 : HTLCConfig :=
  { senderPublicKey := 0x02 :: List.replicate 32 0x33,
    receiverPublicKey := 0x03 :: List.replicate 32 0x44,
    hashlock := List.replicate 32 0x22,
    locktime := 1000000,
    network := testnet,
    useSegwit := true }

/-- The same configuration in legacy (P2SH) mode. -/
def cfgLeg : HTLCConfig := { cfg0 with useSegwit := false }

/-- A valid testnet P2WSH destination address. -/
def dest0 : Address := .bech32 ("tb") 0 (List.replicate 32 0x55)

def secret0 : Bytes := List.replicate 32 0x07

def sig0 : Bytes := List.replicate 71 0x30

def txid0 : Bytes := List.replicate 32 0x01

/-- A concrete funding UTXO whose value exceeds `amount + fee` by a dust
amount (300 satoshis at amount 10000 and fee rate 10). -/
def utxo0 : FundingUTXO :=
  { txid := txid0, vout := 0, scriptPubKey := [], value := 12560 }

/-- The transaction `createFundingTransaction` produces for `utxo0` at
amount 10000 and fee rate 10: a single HTLC output, no change output, and
a reported fee of 2260 (the 300-satoshi dust change is silently absorbed
into the actual mining fee). -/
def fundRes0 : HTLCTransaction :=
  { tx := { version := 2, locktime := 0,
            ins := [{ hash := txid0.reverse, index := 0,
                      sequence := 0xffffffff, scriptSig := [],
                      witness := [] }],
            outs := [{ script := OP_0 :: 0x20 :: List.replicate 32 0xaa,
                       value := 10000 }] },
    fee := 2260 }

/-- A concrete order used to exercise the order-transition theorems. -/
def order0 : AtomicSwapOrder :=
  { orderId := "order_1",
    status := .CREATED,
    secret := secret0,
    hashlock := List.replicate 32 0xaa,
    taker := some { address := "0xtaker", bitcoinAddress := "tb1qtaker" },
    bitcoinHTLC := some
      { address := "tb1qhtlc", scriptHash := "a1", amount := "0.002",
        network := "testnet4", locktime := 1000000 },
    monadvmEscrow := some
      { address := "0xescrow", txHash := "0xtx", amount := "1",
        safetyDeposit := "0", creationFee := "0" },
    transactions := none }

/-! ### Helper lemmas -/

lemma asMinimalOP_of_two_le (b : Bytes) (h : 2 ≤ b.length) :
    asMinimalOP b = none := by
  unfold asMinimalOP
  rw [if_neg (by omega), if_neg (by omega)]

lemma compileChunk_data_eq (b : Bytes) (h1 : 2 ≤ b.length)
    (h2 : b.length < 0x4c) : compileChunk (Chunk.data b) = b.length :: b := by
  simp only [compileChunk, asMinimalOP_of_two_le b h1]
  unfold pushdataEncode
  rw [if_pos h2]

lemma length_compileChunk_data_le (b : Bytes) (h2 : b.length < 0x4c) :
    (compileChunk (Chunk.data b)).length ≤ b.length + 1 := by
  cases h : asMinimalOP b with
  | some op => simp [compileChunk, h]
  | none =>
    simp only [compileChunk, h]
    unfold pushdataEncode
    rw [if_pos h2]
    simp

lemma length_scriptNumEncode_le (n : Nat) :
    (scriptNumEncode n).length ≤ 5 := by
  simp only [scriptNumEncode, List.length_map, List.length_range]
  unfold scriptNumSize
  split
  · omega
  · split
    · omega
    · split
      · omega
      · split
        · omega
        · split <;> omega

/-- Explicit byte-level shape of `HTLCBuilder.createHTLCScript` for
standard-sized parameters. -/
lemma createHTLCScript_eq (cfg : HTLCConfig)
    (hh : cfg.hashlock.length = 32) (hr : cfg.receiverPublicKey.length = 33)
    (hs : cfg.senderPublicKey.length = 33) :
    createHTLCScript cfg =
      0x63 :: 0xa8 :: 0x20 :: (cfg.hashlock ++ 0x88 :: 0x21 ::
        (cfg.receiverPublicKey ++ 0xac :: 0x67 ::
          (compileChunk (Chunk.data (scriptNumEncode cfg.locktime)) ++
            0xb1 :: 0x75 :: 0x21 :: (cfg.senderPublicKey ++ [0xac, 0x68])))) := by
  unfold createHTLCScript compile
  simp only [List.foldr_cons, List.foldr_nil]
  rw [compileChunk_data_eq cfg.hashlock (by omega) (by omega),
      compileChunk_data_eq cfg.receiverPublicKey (by omega) (by omega),
      compileChunk_data_eq cfg.senderPublicKey (by omega) (by omega),
      hh, hr, hs]
  simp [compileChunk, OP_IF, OP_SHA256, OP_EQUALVERIFY, OP_CHECKSIG, OP_ELSE,
    OP_CHECKLOCKTIMEVERIFY, OP_DROP, OP_ENDIF]

/-- Explicit byte-level shape of the claim-htlc-reverse.ts script builder
for standard-sized parameters. -/
lemma reverseCreateHTLCScript_eq (send recv hl : Bytes) (lt : Nat)
    (hh : hl.length = 32) (hr : recv.length = 33) (hs : send.length = 33) :
    reverseCreateHTLCScript send recv hl lt =
      0x63 :: 0xa8 :: 0x20 :: (hl ++ 0x88 :: 0x21 ::
        (recv ++ 0x67 :: 0x04 :: (writeUInt32LE lt ++
          0xb1 :: 0x75 :: 0x21 :: (send ++ [0x68, 0xac])))) := by
  unfold reverseCreateHTLCScript compile
  simp only [List.foldr_cons, List.foldr_nil]
  rw [compileChunk_data_eq hl (by omega) (by omega),
      compileChunk_data_eq recv (by omega) (by omega),
      compileChunk_data_eq send (by omega) (by omega),
      compileChunk_data_eq (writeUInt32LE lt) (by simp [writeUInt32LE])
        (by simp [writeUInt32LE]),
      hh, hr, hs]
  simp [compileChunk, writeUInt32LE, OP_IF, OP_SHA256, OP_EQUALVERIFY,
    OP_CHECKSIG, OP_ELSE, OP_CHECKLOCKTIMEVERIFY, OP_DROP, OP_ENDIF]

lemma length_createHTLCScript_le (cfg : HTLCConfig)
    (hh : cfg.hashlock.length = 32) (hr : cfg.receiverPublicKey.length = 33)
    (hs : cfg.senderPublicKey.length = 33) :
    (createHTLCScript cfg).length ≤ 116 := by
  have hn := length_scriptNumEncode_le cfg.locktime
  have hc := length_compileChunk_data_le (scriptNumEncode cfg.locktime) (by omega)
  rw [createHTLCScript_eq cfg hh hr hs]
  simp [hh, hr, hs]
  omega

lemma fromOutputScript_p2wsh (h : Bytes) (hh : h.length = 32) (n : Network) :
    fromOutputScript (OP_0 :: 0x20 :: h) n = some (.bech32 n.bech32 0 h) := by
  unfold fromOutputScript
  rw [if_neg (by simp [OP_0, OP_DUP]), if_neg (by simp [OP_0, OP_HASH160]),
      if_neg (by simp), if_pos (by simp [hh])]
  simp

lemma fromOutputScript_p2sh (h : Bytes) (hh : h.length = 20) (n : Network) :
    fromOutputScript (OP_HASH160 :: 0x14 :: (h ++ [OP_EQUAL])) n =
      some (.base58 n.scriptHash h) := by
  unfold fromOutputScript
  rw [if_neg (by simp [OP_HASH160, OP_DUP])]
  rw [if_pos]
  · congr 1
    congr 1
    rw [show (OP_HASH160 :: 0x14 :: (h ++ [OP_EQUAL])).drop 2 = h ++ [OP_EQUAL] from rfl]
    rw [← hh, List.take_left]
  · refine ⟨rfl, by simp [hh], ?_⟩
    rw [show (OP_HASH160 :: 0x14 :: (h ++ [OP_EQUAL])).drop 22 =
      (h ++ [OP_EQUAL]).drop 20 from rfl, ← hh, List.drop_left]

/-- `createHTLC` in segwit mode, for a 32-byte script digest. -/
lemma createHTLC_segwit (sha256 hash160 : Bytes → Bytes) (cfg : HTLCConfig)
    (hseg : cfg.useSegwit = true)
    (hsha : (sha256 (createHTLCScript cfg)).length = 32) :
    createHTLC sha256 hash160 cfg = some
      { address := .bech32 cfg.network.bech32 0 (sha256 (createHTLCScript cfg)),
        redeemScript := createHTLCScript cfg,
        lockingScript := OP_0 :: 0x20 :: sha256 (createHTLCScript cfg),
        scriptHash := sha256 (createHTLCScript cfg),
        witnessScript := some (createHTLCScript cfg) } := by
  have hc : compile [Chunk.code OP_0,
      Chunk.data (sha256 (createHTLCScript cfg))] =
      OP_0 :: 0x20 :: sha256 (createHTLCScript cfg) := by
    unfold compile
    simp only [List.foldr_cons, List.foldr_nil]
    rw [compileChunk_data_eq (sha256 (createHTLCScript cfg)) (by omega) (by omega),
      hsha]
    simp [compileChunk]
  unfold createHTLC
  rw [hseg]
  simp [hc, fromOutputScript_p2wsh _ hsha]

/-- `createHTLC` in legacy mode, for a 20-byte script digest. -/
lemma createHTLC_legacy (sha256 hash160 : Bytes → Bytes) (cfg : HTLCConfig)
    (hseg : cfg.useSegwit = false)
    (hh : (hash160 (createHTLCScript cfg)).length = 20) :
    createHTLC sha256 hash160 cfg = some
      { address := .base58 cfg.network.scriptHash (hash160 (createHTLCScript cfg)),
        redeemScript := createHTLCScript cfg,
        lockingScript := OP_HASH160 :: 0x14 ::
          (hash160 (createHTLCScript cfg) ++ [OP_EQUAL]),
        scriptHash := hash160 (createHTLCScript cfg),
        witnessScript := none } := by
  have hc : compile [Chunk.code OP_HASH160,
      Chunk.data (hash160 (createHTLCScript cfg)), Chunk.code OP_EQUAL] =
      OP_HASH160 :: 0x14 :: (hash160 (createHTLCScript cfg) ++ [OP_EQUAL]) := by
    unfold compile
    simp only [List.foldr_cons, List.foldr_nil]
    rw [compileChunk_data_eq (hash160 (createHTLCScript cfg)) (by omega) (by omega),
      hh]
    simp [compileChunk]
  unfold createHTLC
  rw [hseg]
  simp [hc, fromOutputScript_p2sh _ hh]

lemma readVarInt_cons (n : Nat) (h : n < 0xfd) (bs : Bytes) :
    readVarInt (n :: bs) = some (n, bs) := by
  simp only [readVarInt]
  rw [if_pos h]

lemma readSlices_encode (stack : List Bytes)
    (hb : ∀ x ∈ stack, x.length < 0xfd) :
    readSlices stack.length
      (stack.foldr (fun item acc => (item.length % 256) :: (item ++ acc)) []) =
      some (stack, []) := by
  induction stack with
  | nil => rfl
  | cons x xs ih =>
    have hx : x.length < 0xfd := hb x (by simp)
    have hxs : ∀ y ∈ xs, y.length < 0xfd := fun y hy => hb y (by simp [hy])
    have hmod : x.length % 256 = x.length := Nat.mod_eq_of_lt (by omega)
    simp only [List.foldr_cons, List.length_cons]
    unfold readSlices
    rw [hmod, readVarInt_cons _ hx]
    dsimp only
    rw [List.drop_left, ih hxs]
    dsimp only
    rw [List.take_left]

/-- The hand-written witness bytes of the custom finalizers parse back to
the original stack whenever every element (and the element count) fits in
a single-byte varint. -/
lemma witnessStack_roundtrip (stack : List Bytes)
    (hc : stack.length < 0xfd) (hb : ∀ x ∈ stack, x.length < 0xfd) :
    scriptWitnessToWitnessStack (encodeWitnessStack stack) = some stack := by
  unfold scriptWitnessToWitnessStack encodeWitnessStack
  rw [Nat.mod_eq_of_lt (show stack.length < 256 by omega), readVarInt_cons _ hc]
  dsimp only
  rw [readSlices_encode stack hb]
  rfl

/-! ### Claim theorems -/

/-- C10: for every HTLCConfig with the segwit flag false,
`createClaimTransaction` and `createRefundTransaction` raise the explicit
legacy-unsupported error, for every combination of the remaining
arguments and of the signing outcome — so no input is consumed, no
signature matters, and no transaction is produced; only funding is
available in legacy mode. -/
theorem legacy_claim_refund_unsupported
    (sha256 hash160 : Bytes → Bytes) (cfg : HTLCConfig)
    (hseg : cfg.useSegwit = false)
    (hh : (hash160 (createHTLCScript cfg)).length = 20)
    (htlcTxid : Bytes) (htlcVout : Nat) (htlcAmount : Int) (secret : Bytes)
    (destinationAddress : Address) (feeRate : Nat) (signature : Bytes)
    (sigDecodes : Bytes → Bool) :
    createClaimTransaction sha256 hash160 cfg htlcTxid htlcVout htlcAmount
        secret destinationAddress feeRate signature sigDecodes =
      .error .legacyUnsupported ∧
    createRefundTransaction sha256 hash160 cfg htlcTxid htlcVout htlcAmount
        destinationAddress feeRate signature sigDecodes =
      .error .legacyUnsupported := by
  constructor
  · unfold createClaimTransaction
    rw [createHTLC_legacy sha256 hash160 cfg hseg hh]
    dsimp only
    rw [hseg]
    simp
  · unfold createRefundTransaction
    rw [createHTLC_legacy sha256 hash160 cfg hseg hh]
    dsimp only
    rw [hseg]
    simp

/-- Closed instance of `legacy_claim_refund_unsupported`. -/
theorem legacy_claim_refund_unsupported_witness :
    createClaimTransaction dummySha dummyHash160 cfgLeg txid0 0 100000
        secret0 dest0 10 sig0 (fun _ => true) = .error .legacyUnsupported ∧
    createRefundTransaction dummySha dummyHash160 cfgLeg txid0 0 100000
        dest0 10 sig0 (fun _ => true) = .error .legacyUnsupported :=
  legacy_claim_refund_unsupported dummySha dummyHash160 cfgLeg (by decide)
    (by decide) txid0 0 100000 secret0 dest0 10 sig0 (fun _ => true)

/-- C8: hashlock verification is sound and complete with respect to the
hash function — `verifySecret sha s (sha s)` always holds, and it fails
for every hashlock different from `sha s` — and a failed verification in
`HTLCCreator.createClaimTx` is fatal: the step returns the
secret-mismatch error (for every funding reference, destination, fee rate
and signing outcome), so no claim transaction is constructed. -/
theorem verify_secret_guard :
    (∀ (sha256 : Bytes → Bytes) (s : Bytes),
      verifySecret sha256 s (sha256 s) = true) ∧
    (∀ (sha256 : Bytes → Bytes) (s h : Bytes), h ≠ sha256 s →
      verifySecret sha256 s h = false) ∧
    (∀ (sha256 hash160 : Bytes → Bytes) (params : HTLCParams)
      (fundingTxid : Bytes) (fundingVout : Nat) (secret : Bytes)
      (destinationAddress : Address) (feeRate : Nat) (signature : Bytes)
      (sigDecodes : Bytes → Bool),
      (getNetwork params.network).isSome →
      sha256 secret ≠ params.hashlock →
      createClaimTx sha256 hash160 params fundingTxid fundingVout secret
        destinationAddress feeRate signature sigDecodes =
        .error .secretMismatch) := by
  refine ⟨?_, ?_, ?_⟩
  · intro sha256 s
    simp [verifySecret]
  · intro sha256 s h hne
    simp [verifySecret]
    exact fun he => absurd he.symm hne
  · intro sha256 hash160 params fundingTxid fundingVout secret
      destinationAddress feeRate signature sigDecodes hnet hne
    obtain ⟨nw, hnw⟩ := Option.isSome_iff_exists.mp hnet
    unfold createClaimTx
    rw [hnw]
    dsimp only
    rw [if_pos (by simp [verifySecret, hne])]

/-- Closed instance of `verify_secret_guard`. -/
theorem verify_secret_guard_witness :
    verifySecret dummySha secret0 (dummySha secret0) = true ∧
    verifySecret dummySha secret0 [0x09] = false ∧
    createClaimTx dummySha dummyHash160
      { senderPublicKey := cfg0.senderPublicKey,
        receiverPublicKey := cfg0.receiverPublicKey,
        hashlock := [0x09], locktime := 1000000,
        network := "testnet4", useSegwit := true }
      txid0 0 secret0 dest0 10 sig0 (fun _ => true) = .error .secretMismatch :=
  ⟨verify_secret_guard.1 dummySha secret0,
   verify_secret_guard.2.1 dummySha secret0 [0x09] (by decide),
   verify_secret_guard.2.2 dummySha dummyHash160 _ txid0 0 secret0 dest0 10
     sig0 (fun _ => true) (by decide) (by decide)⟩

/-- C5: on a transaction whose input 0 stack has fewer than two elements
the extractor returns no secret, and on a stack with two or more elements
it returns exactly the second stack element. -/
theorem extract_secret_stack_semantics (tx : Transaction) (i : TxIn)
    (rest : List TxIn) (hins : tx.ins = i :: rest) :
    ((input0Stack i).length < 2 → extractSecretFromTransaction tx = none) ∧
    (2 ≤ (input0Stack i).length →
      extractSecretFromTransaction tx = (input0Stack i).get? 1) := by
  unfold extractSecretFromTransaction input0Stack
  rw [hins]
  dsimp only
  by_cases hw : i.witness.length > 0
  · rw [if_pos hw, if_pos hw]
    constructor
    · intro hlt
      rw [List.length_map] at hlt
      have h1 : i.witness.get? 1 = none := List.get?_eq_none.mpr (by omega)
      rw [h1]
      rfl
    · intro hge
      rw [List.get?_map]
  · rw [if_neg hw, if_neg hw]
    by_cases hs : i.scriptSig.length > 0
    · rw [if_pos hs, if_pos hs]
      cases hd : decompile i.scriptSig with
      | none => simp
      | some chunks =>
        simp only [Option.getD_some]
        constructor
        · intro hlt
          rw [if_neg (by omega)]
        · intro hge
          rw [if_pos (by omega)]
    · rw [if_neg hs, if_neg hs]
      simp

/-- Closed instance of `extract_secret_stack_semantics`: a one-element
witness yields no secret, and on the four-element claim stack the second
element (the secret) is returned. -/
theorem extract_secret_stack_semantics_witness :
    extractSecretFromTransaction
      { version := 2, locktime := 0,
        ins := [{ hash := txid0, index := 0, sequence := 0xffffffff,
                  scriptSig := [], witness := [sig0] }], outs := [] } = none ∧
    extractSecretFromTransaction
      { version := 2, locktime := 0,
        ins := [{ hash := txid0, index := 0, sequence := 0xffffffff,
                  scriptSig := [],
                  witness := [sig0, secret0, [1], [0x68]] }], outs := [] } =
      some (.data secret0) := by
  constructor
  · exact (extract_secret_stack_semantics _ _ _ rfl).1 (by decide)
  · have h := (extract_secret_stack_semantics
      { version := 2, locktime := 0,
        ins := [{ hash := txid0, index := 0, sequence := 0xffffffff,
                  scriptSig := [],
                  witness := [sig0, secret0, [1], [0x68]] }], outs := [] }
      _ _ rfl).2 (by decide)
    rw [h]
    decide

/-- C2 (amended): the maker-claim step (FUNDED→COMPLETED) rejects any
status other than FUNDED, and rejects a missing taker / Bitcoin-HTLC /
escrow component, before any mutation — an error result leaves the stored
record untouched since persistence happens only on success.  The
taker-fund step (→FUNDED), however, guards only component presence: it
transitions to FUNDED from EVERY prior status.  And a missing
`transactions.bitcoinHTLCFunding` reference is not guarded at all: the
maker-claim step hands the empty string to the claim subprocess and, when
that subprocess reports success, completes the order. -/
theorem order_transition_guards :
    (∀ (sha256 : Bytes → Bytes) (order : AtomicSwapOrder)
      (claimStep : String → Except String String),
      order.status ≠ .FUNDED →
      makerClaimBtc sha256 order claimStep = .error .invalidOrderState) ∧
    (∀ (sha256 : Bytes → Bytes) (order : AtomicSwapOrder)
      (claimStep : String → Except String String),
      order.status = .FUNDED →
      (order.taker.isNone ∨ order.bitcoinHTLC.isNone ∨
        order.monadvmEscrow.isNone) →
      makerClaimBtc sha256 order claimStep = .error .missingComponents) ∧
    (∀ (order : AtomicSwapOrder) (fundingStep : Except String String)
      (simTxid : String),
      order.taker.isSome → order.bitcoinHTLC.isSome →
      order.monadvmEscrow.isSome →
      ∃ o, takerFundHtlc order fundingStep simTxid = .ok o ∧
        o.status = .FUNDED) ∧
    (∀ (sha256 : Bytes → Bytes) (order : AtomicSwapOrder),
      order.status = .FUNDED →
      order.taker.isSome → order.bitcoinHTLC.isSome →
      order.monadvmEscrow.isSome →
      sha256 order.secret = order.hashlock →
      order.transactions = none →
      makerClaimBtc sha256 order (fun s => .ok s) =
        .ok { order with
                status := .COMPLETED,
                transactions := some { bitcoinHTLCClaim := some ("") } }) := by
  refine ⟨?_, ?_, ?_, ?_⟩
  · intro sha256 order claimStep hst
    unfold makerClaimBtc
    rw [if_pos hst]
  · intro sha256 order claimStep hst hmiss
    unfold makerClaimBtc
    rw [if_neg (by simp [hst]), if_pos hmiss]
  · intro order fundingStep simTxid ht hb hm
    rw [Option.isSome_iff_ne_none] at ht hb hm
    unfold takerFundHtlc
    rw [if_neg (by simp [Option.isNone_iff_eq_none]; exact ⟨ht, hb, hm⟩)]
    exact ⟨_, rfl, rfl⟩
  · intro sha256 order hst ht hb hm hsec htr
    rw [Option.isSome_iff_ne_none] at ht hb hm
    unfold makerClaimBtc
    rw [if_neg (by simp [hst]),
      if_neg (by simp [Option.isNone_iff_eq_none]; exact ⟨ht, hb, hm⟩),
      if_neg (by simp [hsec]), htr]
    rfl


/-- Counterexample to C2 as stated: `order0` has status CREATED — not
FILLED — and all components present, yet the taker-fund step succeeds and
mutates the record to FUNDED instead of failing with an
invalid-order-state error. -/
theorem order_transition_guards_counterexample :
    order0.status = .CREATED ∧
    takerFundHtlc order0 (.ok ("abc123")) ("sim") =
      .ok { order0 with
              status := .FUNDED,
              transactions := some { bitcoinHTLCFunding := some ("abc123") } } := by
  constructor
  · rfl
  · rfl

/-- Closed instance of `order_transition_guards`. -/
theorem order_transition_guards_witness :
    makerClaimBtc dummySha order0 (fun _ => .ok ("t")) =
      .error .invalidOrderState ∧
    makerClaimBtc dummySha { order0 with status := .FUNDED, taker := none }
      (fun _ => .ok ("t")) = .error .missingComponents ∧
    (∃ o, takerFundHtlc order0 (.error ("net")) ("sim") = .ok o ∧
      o.status = .FUNDED) ∧
    makerClaimBtc dummySha { order0 with status := .FUNDED } (fun s => .ok s) =
      .ok { order0 with
              status := .COMPLETED,
              transactions := some { bitcoinHTLCClaim := some ("") } } := by
  refine ⟨?_, ?_, ?_, ?_⟩
  · exact order_transition_guards.1 dummySha order0 _ (by decide)
  · exact order_transition_guards.2.1 dummySha _ _ rfl (by simp)
  · exact order_transition_guards.2.2.1 order0 _ ("sim") (by simp [order0])
      (by simp [order0]) (by simp [order0])
  · exact order_transition_guards.2.2.2 dummySha _ rfl (by simp [order0])
      (by simp [order0]) (by simp [order0]) (by decide) rfl

/-- C1: for every segwit HTLC configuration with standard-sized
parameters and every 32-byte secret, `createClaimTransaction` succeeds
with the witness stack `[signature, secret, TRUE, redeemScript]` on input
0 — the hand-written `finalScriptWitness` bytes parse back to exactly that
stack — and `extractSecretFromTransaction` on the resulting transaction
returns exactly the original secret. -/
theorem claim_witness_roundtrip
    (sha256 hash160 : Bytes → Bytes) (cfg : HTLCConfig)
    (hseg : cfg.useSegwit = true)
    (hhl : cfg.hashlock.length = 32)
    (hrecv : cfg.receiverPublicKey.length = 33)
    (hsend : cfg.senderPublicKey.length = 33)
    (hsha : (sha256 (createHTLCScript cfg)).length = 32)
    (htlcTxid : Bytes) (htlcVout : Nat) (htlcAmount : Int)
    (secret : Bytes) (hsec : secret.length = 32)
    (destinationAddress : Address)
    (hdest : (toOutputScript destinationAddress cfg.network).isSome)
    (feeRate : Nat) (signature : Bytes) (hsig : signature.length < 253)
    (sigDecodes : Bytes → Bool) (hdec : sigDecodes signature = true)
    (hamt0 : 0 ≤ htlcAmount - (150 * feeRate : Nat))
    (hamt1 : htlcAmount - (150 * feeRate : Nat) ≤ maxSatoshi) :
    ∃ r, createClaimTransaction sha256 hash160 cfg htlcTxid htlcVout
        htlcAmount secret destinationAddress feeRate signature sigDecodes =
        .ok r ∧
      r.tx.ins.map (·.witness) =
        [[signature, secret, [1], createHTLCScript cfg]] ∧
      extractSecretFromTransaction r.tx = some (.data secret) := by
  obtain ⟨outScript, hout⟩ := Option.isSome_iff_exists.mp hdest
  have hlen : (createHTLCScript cfg).length ≤ 116 :=
    length_createHTLCScript_le cfg hhl hrecv hsend
  have hb : ∀ x ∈ [signature, secret, [1], createHTLCScript cfg],
      x.length < 253 := by
    intro x hx
    simp only [List.mem_cons, List.not_mem_nil, or_false] at hx
    rcases hx with h | h | h | h <;> subst h
    · omega
    · omega
    · simp
    · omega
  have hrt := witnessStack_roundtrip
    [signature, secret, [1], createHTLCScript cfg] (by simp) hb
  unfold createClaimTransaction
  rw [createHTLC_segwit sha256 hash160 cfg hseg hsha]
  dsimp only
  rw [hseg, if_neg (by simp), hout]
  dsimp only
  rw [if_neg (by push_neg; exact ⟨hamt0, hamt1⟩), if_neg (by simp [hdec])]
  rw [Option.getD_some, hrt]
  dsimp only
  refine ⟨_, rfl, by simp, ?_⟩
  simp [extractSecretFromTransaction]

/-- Closed instance of `claim_witness_roundtrip`. -/
theorem claim_witness_roundtrip_witness :
    ∃ r, createClaimTransaction dummySha dummyHash160 cfg0 txid0 0 100000
        secret0 dest0 10 sig0 (fun _ => true) = .ok r ∧
      r.tx.ins.map (·.witness) =
        [[sig0, secret0, [1], createHTLCScript cfg0]] ∧
      extractSecretFromTransaction r.tx = some (.data secret0) :=
  claim_witness_roundtrip dummySha dummyHash160 cfg0 (by decide) (by decide)
    (by decide) (by decide) (by decide) txid0 0 100000 secret0 (by decide)
    dest0 (by decide) 10 sig0 (by decide) (fun _ => true) (by decide)
    (by decide) (by decide)

/-- C6: every refund transaction `createRefundTransaction` builds (for a
segwit configuration with standard-sized parameters and an in-range
locktime) carries the HTLC's configured locktime in the transaction
locktime field, has its single input's sequence set to `0xfffffffe`
(strictly below `0xffffffff`), and carries the witness stack
`[signature, FALSE, redeemScript]` on input 0. -/
theorem refund_locktime_sequence_witness_stack
    (sha256 hash160 : Bytes → Bytes) (cfg : HTLCConfig)
    (hseg : cfg.useSegwit = true)
    (hlk : cfg.locktime < 4294967296)
    (hhl : cfg.hashlock.length = 32)
    (hrecv : cfg.receiverPublicKey.length = 33)
    (hsend : cfg.senderPublicKey.length = 33)
    (hsha : (sha256 (createHTLCScript cfg)).length = 32)
    (htlcTxid : Bytes) (htlcVout : Nat) (htlcAmount : Int)
    (destinationAddress : Address)
    (hdest : (toOutputScript destinationAddress cfg.network).isSome)
    (feeRate : Nat) (signature : Bytes) (hsig : signature.length < 253)
    (sigDecodes : Bytes → Bool) (hdec : sigDecodes signature = true)
    (hamt0 : 0 ≤ htlcAmount - (150 * feeRate : Nat))
    (hamt1 : htlcAmount - (150 * feeRate : Nat) ≤ maxSatoshi) :
    ∃ r, createRefundTransaction sha256 hash160 cfg htlcTxid htlcVout
        htlcAmount destinationAddress feeRate signature sigDecodes = .ok r ∧
      r.tx.locktime = cfg.locktime ∧
      r.tx.ins.map (·.sequence) = [0xfffffffe] ∧
      (0xfffffffe : Nat) < 0xffffffff ∧
      r.tx.ins.map (·.witness) = [[signature, [0], createHTLCScript cfg]] := by
  obtain ⟨outScript, hout⟩ := Option.isSome_iff_exists.mp hdest
  have hlen : (createHTLCScript cfg).length ≤ 116 :=
    length_createHTLCScript_le cfg hhl hrecv hsend
  have hb : ∀ x ∈ [signature, [0], createHTLCScript cfg],
      x.length < 253 := by
    intro x hx
    simp only [List.mem_cons, List.not_mem_nil, or_false] at hx
    rcases hx with h | h | h <;> subst h
    · omega
    · simp
    · omega
  have hrt := witnessStack_roundtrip
    [signature, [0], createHTLCScript cfg] (by simp) hb
  unfold createRefundTransaction
  rw [createHTLC_segwit sha256 hash160 cfg hseg hsha]
  dsimp only
  rw [hseg, if_neg (by simp), if_neg (by omega), hout]
  dsimp only
  rw [if_neg (by push_neg; exact ⟨hamt0, hamt1⟩), if_neg (by simp [hdec])]
  rw [Option.getD_some, hrt]
  dsimp only
  exact ⟨_, rfl, rfl, by simp, by simp, by simp⟩

/-- Closed instance of `refund_locktime_sequence_witness_stack`. -/
theorem refund_locktime_sequence_witness_stack_witness :
    ∃ r, createRefundTransaction dummySha dummyHash160 cfg0 txid0 0 100000
        dest0 10 sig0 (fun _ => true) = .ok r ∧
      r.tx.locktime = cfg0.locktime ∧
      r.tx.ins.map (·.sequence) = [0xfffffffe] ∧
      (0xfffffffe : Nat) < 0xffffffff ∧
      r.tx.ins.map (·.witness) = [[sig0, [0], createHTLCScript cfg0]] :=
  refund_locktime_sequence_witness_stack dummySha dummyHash160 cfg0
    (by decide) (by decide) (by decide) (by decide) (by decide) (by decide)
    txid0 0 100000 dest0 (by decide) 10 sig0 (by decide) (fun _ => true)
    (by decide) (by decide) (by decide)

set_option maxRecDepth 8192 in
/-- Counterexample to C3 as stated: at `htlcAmount = 1500` and
`feeRate = 10` the computed fee is exactly 1500, so the input value minus
the fee is 0 — yet `HTLCBuilder.createClaimTransaction` does not fail
with an insufficient-funds error: it signs and returns a transaction
paying a zero-value output, with the signature in its witness. -/
theorem claim_insufficient_funds_counterexample :
    ((createClaimTransaction dummySha dummyHash160 cfg0 txid0 0 1500 secret0
      dest0 10 sig0 (fun _ => true)).toOption.map
        (fun r => (r.fee, r.tx.outs.map (·.value),
          r.tx.ins.map (·.witness)))) =
      some (1500, [0], [[sig0, secret0, [1], createHTLCScript cfg0]]) := by
  decide

/-- C3 (amended): the reverse-flow `claimHTLC` does reject
`fundingAmount - fee ≤ 0` with its insufficient-funds error before the
transaction is created or signed (the result is that error for every
signature and signature-decoder); `HTLCBuilder.createClaimTransaction`
has no such guard — only a strictly negative output amount is rejected,
by the library's output-value validation inside `psbt.addOutput`, which
also happens before signing, while a zero output amount is accepted,
signed and returned. -/
theorem claim_insufficient_funds_guards :
    (∀ (sha256 : Bytes → Bytes) (htlcConfig : ReverseHTLCConfig)
      (fundingTxId secret : Bytes) (destinationAddress : Address)
      (feeRate : Nat) (v : Int) (signature : Bytes)
      (sigDecodes : Bytes → Bool),
      (reverseNETWORKS htlcConfig.networkName).isSome →
      sha256 secret = htlcConfig.hashlock →
      v - (300 * feeRate : Nat) ≤ 0 →
      claimHTLC sha256 htlcConfig fundingTxId secret destinationAddress
        feeRate (some v) signature sigDecodes = .error .insufficientFunds) ∧
    (∀ (sha256 hash160 : Bytes → Bytes) (cfg : HTLCConfig)
      (htlcTxid : Bytes) (htlcVout : Nat) (htlcAmount : Int) (secret : Bytes)
      (destinationAddress : Address) (feeRate : Nat) (signature : Bytes)
      (sigDecodes : Bytes → Bool),
      cfg.useSegwit = true →
      (sha256 (createHTLCScript cfg)).length = 32 →
      (toOutputScript destinationAddress cfg.network).isSome →
      htlcAmount - (150 * feeRate : Nat) < 0 →
      createClaimTransaction sha256 hash160 cfg htlcTxid htlcVout htlcAmount
        secret destinationAddress feeRate signature sigDecodes =
        .error .invalidOutputValue) := by
  constructor
  · intro sha256 htlcConfig fundingTxId secret destinationAddress feeRate v
      signature sigDecodes hnet hsec hv
    obtain ⟨nw, hnw⟩ := Option.isSome_iff_exists.mp hnet
    unfold claimHTLC
    rw [hnw]
    dsimp only
    rw [if_neg (by simp [hsec])]
    rw [if_pos hv]
  · intro sha256 hash160 cfg htlcTxid htlcVout htlcAmount secret
      destinationAddress feeRate signature sigDecodes hseg hsha hdest hneg
    obtain ⟨outScript, hout⟩ := Option.isSome_iff_exists.mp hdest
    unfold createClaimTransaction
    rw [createHTLC_segwit sha256 hash160 cfg hseg hsha]
    dsimp only
    rw [hseg, if_neg (by simp), hout]
    dsimp only
    rw [if_pos (Or.inl hneg)]

/-- Closed instance of `claim_insufficient_funds_guards`. -/
theorem claim_insufficient_funds_guards_witness :
    claimHTLC dummySha
      { networkName := "testnet4", locktime := 1000000,
        senderPublicKey := cfg0.senderPublicKey,
        receiverPublicKey := cfg0.receiverPublicKey,
        hashlock := List.replicate 32 0xaa, witnessScript := none }
      txid0 secret0 dest0 10 (some 1000) sig0 (fun _ => true) =
      .error .insufficientFunds ∧
    createClaimTransaction dummySha dummyHash160 cfg0 txid0 0 100 secret0
      dest0 10 sig0 (fun _ => true) = .error .invalidOutputValue :=
  ⟨claim_insufficient_funds_guards.1 dummySha _ txid0 secret0 dest0 10 1000
      sig0 (fun _ => true) (by decide) (by decide) (by decide),
   claim_insufficient_funds_guards.2 dummySha dummyHash160 cfg0 txid0 0 100
      secret0 dest0 10 sig0 (fun _ => true) (by decide) (by decide)
      (by decide) (by decide)⟩

set_option maxRecDepth 8192 in
/-- Counterexample to C4 as stated: for a single 12560-satoshi UTXO,
amount 10000 and fee rate 10 the computed fee is 2260 and the change is
300 — below the dust threshold, so no change output is added — and the
funding transaction has `sum(inputs) = 12560` but
`sum(outputs) + fee = 12260`: the balance equation fails. -/
theorem funding_balance_counterexample :
    createFundingTransaction dummySha dummyHash160 cfg0 [utxo0] 10000 dest0
      10 (fun _ => []) = .ok fundRes0 ∧
    ([utxo0].map (·.value)).sum = (12560 : Int) ∧
    ((fundRes0.tx.outs.map (·.value)).sum : Int) + fundRes0.fee = 12260 ∧
    (12560 : Int) ≠ 12260 := by
  decide

/-- C4 (amended): for every funding transaction
`createFundingTransaction` produces, the reported fee is exactly
`(#inputs * 148 + 2*34 + 10) * feeRate` (the ceiling of an integer
product is the product itself), a change output is present exactly when
`change = sum(inputs) - amount - fee` exceeds the 546-satoshi dust
threshold, and the balance equation is
`sum(inputs) = sum(outputs) + fee + residual` where `residual` is 0 when
a change output is added and the (possibly dust, possibly negative)
change otherwise — so `sum(inputs) = sum(outputs) + fee` holds only when
the change is 0 or exceeds the dust threshold. -/
theorem funding_balance
    (sha256 hash160 : Bytes → Bytes) (cfg : HTLCConfig)
    (utxos : List FundingUTXO) (amount : Int) (changeAddress : Address)
    (feeRate : Nat) (signWitness : Nat → List Bytes) (r : HTLCTransaction)
    (h : createFundingTransaction sha256 hash160 cfg utxos amount
      changeAddress feeRate signWitness = .ok r) :
    r.fee = (utxos.length * 148 + 2 * 34 + 10) * feeRate ∧
    ((r.tx.outs.map (·.value)).sum : Int) + r.fee +
      (if 546 < (utxos.map (·.value)).sum - amount - (r.fee : Int) then 0
        else (utxos.map (·.value)).sum - amount - r.fee) =
      (utxos.map (·.value)).sum ∧
    (r.tx.outs.length = 2 ↔
      546 < (utxos.map (·.value)).sum - amount - (r.fee : Int)) := by
  unfold createFundingTransaction at h
  cases hH : createHTLC sha256 hash160 cfg with
  | none => rw [hH] at h; cases h
  | some htlc =>
    rw [hH] at h
    dsimp only at h
    cases hO : toOutputScript htlc.address cfg.network with
    | none => rw [hO] at h; cases h
    | some htlcOutScript =>
      rw [hO] at h
      dsimp only at h
      by_cases hA : amount < 0 ∨ maxSatoshi < amount
      · rw [if_pos hA] at h; cases h
      · rw [if_neg hA] at h
        by_cases hC : (utxos.map (·.value)).sum - amount -
            ((utxos.length * 148 + 2 * 34 + 10) * feeRate : Nat) > 546
        · rw [if_pos hC] at h
          cases hO2 : toOutputScript changeAddress cfg.network with
          | none => rw [hO2] at h; cases h
          | some changeScript =>
            rw [hO2] at h
            dsimp only at h
            by_cases hA2 : (utxos.map (·.value)).sum - amount -
                ((utxos.length * 148 + 2 * 34 + 10) * feeRate : Nat) < 0 ∨
                maxSatoshi < (utxos.map (·.value)).sum - amount -
                ((utxos.length * 148 + 2 * 34 + 10) * feeRate : Nat)
            · rw [if_pos hA2] at h; cases h
            · rw [if_neg hA2] at h
              injection h with h
              subst h
              refine ⟨rfl, ?_, ?_⟩
              · dsimp only
                rw [if_pos hC]
                simp only [List.map_cons, List.map_nil, List.sum_cons,
                  List.sum_nil]
                omega
              · exact iff_of_true (by simp) hC
        · rw [if_neg hC] at h
          dsimp only at h
          injection h with h
          subst h
          refine ⟨rfl, ?_, ?_⟩
          · dsimp only
            rw [if_neg hC]
            simp only [List.map_cons, List.map_nil, List.sum_cons,
              List.sum_nil]
            omega
          · exact iff_of_false (by simp) hC

/-- Closed instance of `funding_balance` at `utxo0`. -/
theorem funding_balance_witness :
    fundRes0.fee = (([utxo0].length * 148 + 2 * 34 + 10) * 10 : Nat) ∧
    ((fundRes0.tx.outs.map (·.value)).sum : Int) + fundRes0.fee +
      (if 546 < ([utxo0].map (·.value)).sum - 10000 - (fundRes0.fee : Int)
        then 0
        else ([utxo0].map (·.value)).sum - 10000 - fundRes0.fee) =
      ([utxo0].map (·.value)).sum ∧
    (fundRes0.tx.outs.length = 2 ↔
      546 < ([utxo0].map (·.value)).sum - 10000 - (fundRes0.fee : Int)) :=
  funding_balance dummySha dummyHash160 cfg0 [utxo0] 10000 dest0 10
    (fun _ => []) fundRes0 (by decide)

set_option maxRecDepth 8192 in
/-- Counterexample to C7 as stated: for one and the same configuration,
`HTLCBuilder.createHTLCScript` and the `createHTLCScript` of
claim-htlc-reverse.ts produce different script bytes — so two builders in
the system given identical config do NOT produce byte-identical scripts
(nor, consequently, the same P2WSH address). -/
theorem script_builder_divergence_counterexample :
    createHTLCScript cfg0 ≠ reverseCreateHTLCScript cfg0.senderPublicKey
      cfg0.receiverPublicKey cfg0.hashlock cfg0.locktime := by
  decide

/-- C7 (amended): HTLC derivation is a pure function of the
configuration, so repeated builds — and any two `HTLCBuilder` instances
given equal configs — yield byte-identical scripts, script hashes and
addresses.  But the system's second script constructor, in
claim-htlc-reverse.ts, is NOT byte-identical to `HTLCBuilder`'s: it
places a single CHECKSIG after ENDIF (where `HTLCBuilder` puts one inside
each branch) and encodes the locktime as a fixed 4-byte little-endian
buffer (where `HTLCBuilder` uses the minimal script-number encoding), so
for every configuration with standard-sized keys and hashlock the two
scripts differ. -/
theorem script_builder_divergence :
    (∀ (sha256 hash160 : Bytes → Bytes) (c₁ c₂ : HTLCConfig), c₁ = c₂ →
      createHTLC sha256 hash160 c₁ = createHTLC sha256 hash160 c₂ ∧
      createHTLCScript c₁ = createHTLCScript c₂) ∧
    (∀ cfg : HTLCConfig, cfg.hashlock.length = 32 →
      cfg.receiverPublicKey.length = 33 → cfg.senderPublicKey.length = 33 →
      createHTLCScript cfg ≠ reverseCreateHTLCScript cfg.senderPublicKey
        cfg.receiverPublicKey cfg.hashlock cfg.locktime) := by
  constructor
  · intro sha256 hash160 c₁ c₂ hcc
    subst hcc
    exact ⟨rfl, rfl⟩
  · intro cfg hh hr hs heq
    rw [createHTLCScript_eq cfg hh hr hs,
      reverseCreateHTLCScript_eq cfg.senderPublicKey cfg.receiverPublicKey
        cfg.hashlock cfg.locktime hh hr hs] at heq
    simp only [List.cons.injEq, true_and] at heq
    have h2 := List.append_cancel_left heq
    simp only [List.cons.injEq, true_and] at h2
    have h3 := List.append_cancel_left h2
    simp at h3

/-- Closed instance of `script_builder_divergence`. -/
theorem script_builder_divergence_witness :
    (createHTLC dummySha dummyHash160 cfg0 =
      createHTLC dummySha dummyHash160 cfg0 ∧
     createHTLCScript cfg0 = createHTLCScript cfg0) ∧
    createHTLCScript cfgLeg ≠ reverseCreateHTLCScript cfgLeg.senderPublicKey
      cfgLeg.receiverPublicKey cfgLeg.hashlock cfgLeg.locktime :=
  ⟨script_builder_divergence.1 dummySha dummyHash160 cfg0 cfg0 rfl,
   script_builder_divergence.2 cfgLeg (by decide) (by decide) (by decide)⟩

set_option maxRecDepth 8192 in
/-- Counterexample to C9 as stated: the legacy (P2SH) HTLC address built
for testnet also validates against regtest — a different network — because
`bitcoin.networks.testnet` and `bitcoin.networks.regtest` share the same
Base58 version bytes. -/
theorem address_network_validation_counterexample :
    testnet ≠ regtest ∧
    (createHTLC dummySha dummyHash160 cfgLeg).map
      (fun out => validateHTLCAddress out.address regtest) = some true := by
  decide

/-- C9 (amended): every address `createHTLC` derives validates against
the network it was built for; but validation against a DIFFERENT network
fails only when the distinguishing parameter differs: a P2WSH (Bech32)
address fails against any network with a different human-readable part,
while a legacy P2SH address validates against exactly the networks that
reuse its version byte as their pubKeyHash or scriptHash — in particular
testnet-built legacy addresses also validate against regtest. -/
theorem address_network_validation :
    (∀ (sha256 hash160 : Bytes → Bytes) (cfg : HTLCConfig)
      (out : HTLCOutput),
      (sha256 (createHTLCScript cfg)).length = 32 →
      (hash160 (createHTLCScript cfg)).length = 20 →
      createHTLC sha256 hash160 cfg = some out →
      validateHTLCAddress out.address cfg.network = true) ∧
    (∀ (program : Bytes) (n n2 : Network), n.bech32 ≠ n2.bech32 →
      validateHTLCAddress (.bech32 n.bech32 0 program) n2 = false) ∧
    (∀ (h : Bytes) (n n2 : Network), h.length = 20 →
      (validateHTLCAddress (.base58 n.scriptHash h) n2 = true ↔
        (n.scriptHash = n2.pubKeyHash ∨ n.scriptHash = n2.scriptHash))) := by
  refine ⟨?_, ?_, ?_⟩
  · intro sha256 hash160 cfg out hsha h160 hout
    cases hseg : cfg.useSegwit with
    | true =>
      rw [createHTLC_segwit sha256 hash160 cfg hseg hsha] at hout
      injection hout with hout
      subst hout
      unfold validateHTLCAddress toOutputScript
      dsimp only
      rw [if_pos rfl, if_neg (by simp [hsha]), if_pos (by simp [hsha])]
      rfl
    | false =>
      rw [createHTLC_legacy sha256 hash160 cfg hseg h160] at hout
      injection hout with hout
      subst hout
      unfold validateHTLCAddress toOutputScript
      dsimp only
      by_cases hpk : cfg.network.scriptHash = cfg.network.pubKeyHash
      · rw [if_pos (by exact ⟨h160, hpk⟩)]
        rfl
      · rw [if_neg (by simp [hpk]), if_pos (by exact ⟨h160, rfl⟩)]
        rfl
  · intro program n n2 hne
    unfold validateHTLCAddress toOutputScript
    dsimp only
    rw [if_neg hne]
    rfl
  · intro h n n2 hh
    unfold validateHTLCAddress toOutputScript
    dsimp only
    by_cases c1 : n.scriptHash = n2.pubKeyHash
    · rw [if_pos (by exact ⟨hh, c1⟩)]
      simp [c1]
    · rw [if_neg (by simp [c1])]
      by_cases c2 : n.scriptHash = n2.scriptHash
      · rw [if_pos (by exact ⟨hh, c2⟩)]
        simp [c2]
      · rw [if_neg (by simp [c2])]
        simp [c1, c2]

/-- Closed instance of `address_network_validation`. -/
theorem address_network_validation_witness :
    validateHTLCAddress (Address.bech32 ("tb") 0 (List.replicate 32 0xaa))
      testnet = true ∧
    validateHTLCAddress (.bech32 testnet.bech32 0 (List.replicate 32 0xaa))
      mainnet = false ∧
    (validateHTLCAddress (.base58 testnet.scriptHash (List.replicate 20 0x11))
      mainnet = true ↔
      (testnet.scriptHash = mainnet.pubKeyHash ∨
        testnet.scriptHash = mainnet.scriptHash)) :=
  ⟨address_network_validation.1 dummySha dummyHash160 cfg0
      { address := .bech32 ("tb") 0 (List.replicate 32 0xaa),
        redeemScript := createHTLCScript cfg0,
        lockingScript := OP_0 :: 0x20 :: List.replicate 32 0xaa,
        scriptHash := List.replicate 32 0xaa,
        witnessScript := some (createHTLCScript cfg0) }
      (by decide) (by decide) (by decide),
   address_network_validation.2.1 (List.replicate 32 0xaa) testnet mainnet
      (by decide),
   address_network_validation.2.2 (List.replicate 20 0x11) testnet mainnet
      (by decide)⟩

end BitMon
